import Mathlib

/-!
Shallow embedding of `src/youtube_player.py` (a Discord music bot).

The embedding covers the parts of the program the verification needs:

* `is_valid_attachment` — the filename-extension validator (translated
  character by character from the Python scanning loop);
* `TrackRecycler` — the reference-counted track registry: its three dicts
  (`_tracks`, `_handles`, `_references`) are modelled as association lists
  with Python-dict semantics (`aset` replaces in place or appends), and its
  operations `get_track_handle` and `decrement`;
* a small-step interleaving model of `get_track_handle`, split exactly at
  its `await` points (the locked membership check, the slow materialization
  performed with the lock released, the locked registration), used to
  analyse concurrent resolves;
* `TrackQueue` — `enqueue`, `front`, `play` (including the `Voice.play`
  connected check it delegates to), `get_tracklist` and `clear`, modelled
  sequentially: every lock-protected block of the Python code is one
  atomic step here.

Reference counts are Lean `Int` because Python integers go negative.
-/

/-- Python dict lookup `d[k]` / `k in d`, on an association list. -/
def alookup {α : Type} (k : String) : List (String × α) → Option α
  | [] => none
  | (k2, v) :: rest => if k2 = k then some v else alookup k rest

/-- Python dict assignment `d[k] = v`: replaces the binding in place if the
key is present, appends it otherwise. -/
def aset {α : Type} (k : String) (v : α) : List (String × α) → List (String × α)
  | [] => [(k, v)]
  | (k2, v2) :: rest => if k2 = k then (k, v) :: rest else (k2, v2) :: aset k v rest

/-- State of `TrackRecycler`: `_tracks` maps track names (identities) to
handles, `_handles` maps handles back to track names, `_references` maps
handles to reference counts. -/
structure TrackRecycler where
  tracks : List (String × String)
  handles : List (String × String)
  references : List (String × Int)
deriving DecidableEq, Repr

/-- `self._references[self._tracks[track_name]] += 1` on the hit path of
`get_track_handle`.  Registration and cleanup always update `_handles` and
`_references` together, so the Python lookup cannot raise `KeyError`; the
`getD 0` default is therefore never exercised on reachable states. -/
def bumpRef (rec : TrackRecycler) (h : String) : TrackRecycler :=
  { rec with references := aset h ((alookup h rec.references).getD 0 + 1) rec.references }

/-- The registration block of `get_track_handle` (lines 102-106): under the
lock, store the name-to-handle and handle-to-name bindings and set the
reference count to 1 (an unconditional dict assignment, overwriting any
previous count). -/
def registerTrack (rec : TrackRecycler) (name h : String) : TrackRecycler :=
  { tracks := aset name h rec.tracks,
    handles := aset h name rec.handles,
    references := aset h 1 rec.references }

/-- `TrackRecycler.decrement`: under the lock, if the handle is a key of
`_handles`, decrement its reference count (again `_handles` and
`_references` always hold the same keys, so the `getD 0` default is dead). -/
def decrement (rec : TrackRecycler) (h : String) : TrackRecycler :=
  if (alookup h rec.handles).isSome then
    { rec with references := aset h ((alookup h rec.references).getD 0 - 1) rec.references }
  else rec

/-- A playback request as `get_track_handle` sees it: `name` is the dedup
identity (the URL string, or the attachment filename), and `mat` is the
outcome of the external materialization (`track.save` for attachments,
`extract_info` + `prepare_filename` for URLs): `some h` means it produced
the file `h` on disk, `none` means it raised an exception.  For an
attachment, a successful `mat` is `some name`, because the code uses the
filename itself as the handle. -/
structure Request where
  name : String
  mat : Option String
deriving DecidableEq, Repr

/-- `TrackRecycler.get_track_handle`, sequential (no interleaving with other
tasks): if the identity is already registered, bump its refcount and return
the existing handle; otherwise run the materialization, returning the error
sentinel `""` on failure without touching any map, and registering the new
handle with refcount 1 on success. -/
def get_track_handle (rec : TrackRecycler) (req : Request) : TrackRecycler × String :=
  match alookup req.name rec.tracks with
  | some h => (bumpRef rec h, h)
  | none =>
    match req.mat with
    | none => (rec, "")
    | some h => (registerTrack rec req.name h, h)

/-- Program counter of one in-flight `get_track_handle` call, split at the
`await` points of the Python coroutine. -/
inductive Phase where
  /-- about to run the locked `track_name in self._tracks` check -/
  | check : Phase
  /-- about to run the slow materialization, with the mutex released -/
  | materialize : Phase
  /-- materialization done, about to run the locked registration block -/
  | register : Phase
  /-- returned, carrying the returned handle -/
  | done : String → Phase
deriving DecidableEq, Repr

/-- One task running `get_track_handle`: its identity, the handle its
materialization will produce (for an attachment this equals `name`), and
its program counter. -/
structure ResolveTask where
  name : String
  matHandle : String
  pc : Phase
deriving DecidableEq, Repr

/-- Global state of the interleaving model: the recycler maps, the set of
tasks, and a counter of how many materialization calls have been issued. -/
structure Conc where
  recycler : TrackRecycler
  tasks : List ResolveTask
  matCount : Nat
deriving DecidableEq, Repr

/-- One step of one task.  `check` and `register` are single atomic steps
because the Python code holds `self._lock` throughout them; `materialize`
is a separate step because the slow call runs with the lock released, so
other tasks interleave around it. -/
def stepTask (rec : TrackRecycler) (mc : Nat) (t : ResolveTask) :
    TrackRecycler × Nat × ResolveTask :=
  match t.pc with
  | Phase.check =>
    match alookup t.name rec.tracks with
    | some h => (bumpRef rec h, mc, { t with pc := Phase.done h })
    | none => (rec, mc, { t with pc := Phase.materialize })
  | Phase.materialize => (rec, mc + 1, { t with pc := Phase.register })
  | Phase.register =>
    (registerTrack rec t.name t.matHandle, mc, { t with pc := Phase.done t.matHandle })
  | Phase.done _ => (rec, mc, t)

/-- Run one step of the task at index `i` (no-op for an out-of-range index). -/
def stepConc (st : Conc) (i : Nat) : Conc :=
  match st.tasks.get? i with
  | none => st
  | some t =>
    match stepTask st.recycler st.matCount t with
    | (rec2, mc2, t2) => { recycler := rec2, matCount := mc2, tasks := st.tasks.set i t2 }

/-- Run a schedule: a list of task indices, stepped in order. -/
def runSched (sched : List Nat) (st : Conc) : Conc :=
  match sched with
  | [] => st
  | i :: rest => runSched rest (stepConc st i)

/-- The inner loop of `TrackQueue.enqueue`: for each request, re-check the
clearing flag, resolve the request, and append the handle to the track
queue unless it is the error sentinel `""`. -/
def enqueueGo (clearing : Bool) (rec : TrackRecycler) (q : List String) :
    List Request → TrackRecycler × List String
  | [] => (rec, q)
  | r :: rest =>
    if clearing then (rec, q)
    else
      match get_track_handle rec r with
      | (rec2, h) =>
        if h ≠ "" then enqueueGo clearing rec2 (q ++ [h]) rest
        else enqueueGo clearing rec2 q rest

/-- `TrackQueue.enqueue`: rejected outright while the clearing flag is set,
otherwise processes the batch in order. -/
def enqueue (clearing : Bool) (rec : TrackRecycler) (q : List String)
    (batch : List Request) : TrackRecycler × List String :=
  if clearing then (rec, q) else enqueueGo clearing rec q batch

/-- `TrackQueue.front`: head of the queue, or an `IndexError` on an empty
queue. -/
def front (q : List String) : Except String String :=
  match q with
  | [] => Except.error "cannot get the front of an empty queue"
  | h :: _ => Except.ok h

/-- Observable outcome of one `TrackQueue.play` call.  `noTrack` means the
call returned before ever invoking the sink; `played` means `Voice.play`
ran to completion for that handle; `failed` means `Voice.play` raised
(voice client not connected) for that handle and the exception propagated. -/
inductive PlayResult where
  | noTrack : PlayResult
  | played : String → PlayResult
  | failed : String → PlayResult
deriving DecidableEq, Repr

/-- `TrackQueue.play`: under the track lock, return at once if the queue is
empty, otherwise pop the head; then `await voice.play(handle)` — which
raises if the voice client is not connected, in which case the exception
propagates and the `decrement` line is never reached — and finally
`await recycler.decrement(handle)`. -/
def play (q : List String) (rec : TrackRecycler) (connected : Bool) :
    List String × TrackRecycler × PlayResult :=
  match q with
  | [] => (q, rec, PlayResult.noTrack)
  | h :: rest =>
    if connected then (rest, decrement rec h, PlayResult.played h)
    else (rest, rec, PlayResult.failed h)

/-- Repeated sequential `play` calls on a connected sink until the queue is
empty, collecting the outcomes.  The recursion follows `rest` because
`play (h :: rest) rec true = (rest, decrement rec h, played h)`. -/
def playTrace : List String → TrackRecycler → List PlayResult
  | [], _ => []
  | h :: rest, rec =>
    (play (h :: rest) rec true).2.2 :: playTrace rest (play (h :: rest) rec true).2.1

/-- The rotation loop of `TrackQueue.get_tracklist`: `n` remaining
iterations, `i` the Python loop index, `acc` the `tracks` result list.
Each iteration pops the head, appends it to `acc` when `pass i`, and pushes
it on the back of the queue.  The `[]` case is unreachable because the loop
runs exactly `len(queue)` times. -/
def tracklistLoop (pass : Nat → Bool) : Nat → Nat → List String → List String →
    List String × List String
  | 0, _, acc, q => (acc, q)
  | n + 1, i, acc, q =>
    match q with
    | [] => (acc, [])
    | h :: rest =>
      tracklistLoop pass n (i + 1) (if pass i then acc ++ [h] else acc) (rest ++ [h])

/-- `TrackQueue.get_tracklist(max_tracks)`: when `max_tracks <= 0` the code
replaces it by `float('inf')`, so the `i < max_tracks` test is always true;
otherwise the test compares the loop index against `max_tracks`. -/
def get_tracklist (q : List String) (max_tracks : Int) : List String × List String :=
  tracklistLoop
    (if max_tracks ≤ 0 then fun _ => true else fun i => decide ((i : Int) < max_tracks))
    q.length 0 [] q

/-- The drain loop of `TrackQueue.clear`: pop every handle and decrement its
reference count. -/
def clearLoop (rec : TrackRecycler) : List String → TrackRecycler
  | [] => rec
  | h :: rest => clearLoop (decrement rec h) rest

/-- `TrackQueue.clear`: if the clearing flag is already set, return at once
(a clear is in progress elsewhere); otherwise set the flag, take both
locks, drain the queue decrementing each handle, and in the `finally` block
clear the flag again and release the locks.  The sequential net effect is
captured here: the resulting flag is `false`. -/
def clear (clearing : Bool) (q : List String) (rec : TrackRecycler) :
    Bool × List String × TrackRecycler :=
  if clearing then (clearing, q, rec)
  else (false, [], clearLoop rec q)

/-- The scanning loop of `is_valid_attachment` and `strip_extension`:
`dotScan cs (n+1)` examines index `n` and walks down, mirroring the Python
`while i >= 0` loop started at `len(filename) - 1`; `none` corresponds to
falling out with `i < 0`. -/
def dotScan (cs : List Char) : Nat → Option Nat
  | 0 => none
  | n + 1 => if cs.getD n ' ' = '.' then some n else dotScan cs n

/-- `is_valid_attachment`: scan backwards for the last `'.'`; reject if
there is none; otherwise take `filename[i:]` and accept exactly the five
listed extensions. -/
def is_valid_attachment (filename : String) : Bool :=
  match dotScan filename.data filename.data.length with
  | none => false
  | some i =>
    let extension := String.mk (filename.data.drop i)
    extension == ".mp3" || extension == ".mp4" || extension == ".wav" ||
      extension == ".webm" || extension == ".mov"

/-- Initial state for two concurrent `get_track_handle` calls on the same
attachment `song.mp3` against an empty recycler (for an attachment the
handle is the filename itself). -/
def raceInit : Conc :=
  { recycler := { tracks := [], handles := [], references := [] },
    tasks := [{ name := "song.mp3", matHandle := "song.mp3", pc := Phase.check },
              { name := "song.mp3", matHandle := "song.mp3", pc := Phase.check }],
    matCount := 0 }

/-- An empty recycler. -/
def recEmpty : TrackRecycler := { tracks := [], handles := [], references := [] }

/-- A recycler holding one track: identity `u`, handle `h`, refcount 1. -/
def recOne : TrackRecycler :=
  { tracks := [("u", "h")], handles := [("h", "u")], references := [("h", 1)] }

/-- A recycler holding two tracks: handle `h` with refcount 2 and handle `g`
with refcount 1. -/
def recPair : TrackRecycler :=
  { tracks := [("a", "h"), ("b", "g")],
    handles := [("h", "a"), ("g", "b")],
    references := [("h", 2), ("g", 1)] }

theorem alookup_aset_self {α : Type} (k : String) (v : α) :
    ∀ l : List (String × α), alookup k (aset k v l) = some v
  | [] => by simp [aset, alookup]
  | (k2, v2) :: rest => by
    by_cases h : k2 = k
    · simp [aset, h, alookup]
    · simp [aset, h, alookup, alookup_aset_self k v rest]

theorem alookup_aset_ne {α : Type} {k k2 : String} (v : α) (hne : k2 ≠ k) :
    ∀ l : List (String × α), alookup k (aset k2 v l) = alookup k l
  | [] => by simp [aset, alookup, hne]
  | (k3, v3) :: rest => by
    by_cases h : k3 = k2
    · subst h; simp [aset, alookup, hne]
    · by_cases h2 : k3 = k
      · subst h2; simp [aset, alookup, Ne.symm hne]
      · simp [aset, h, alookup, h2, alookup_aset_ne v hne rest]

/-- Claim C1: the spec requires that two concurrent `get_track_handle`
calls on the same identity trigger exactly one materialization and leave a
final refcount of 2.  The code has no in-flight marker: the schedule
check, check, save, save, register, register (a legal asyncio interleaving,
since both tasks suspend at their `await track.save` concurrently) issues
TWO materialization calls and ends with refcount 1, the second registration
overwriting the first.  Fully sequentializing the two calls (schedule
0,0,0,1) gives the claimed one call / refcount 2, confirming that the
failure is specific to the concurrent interleaving. -/
theorem concurrent_resolve_double_materialization :
    (runSched [0, 1, 0, 1, 0, 1] raceInit).matCount = 2 ∧
    alookup "song.mp3" (runSched [0, 1, 0, 1, 0, 1] raceInit).recycler.references = some 1 ∧
    (runSched [0, 1, 0, 1, 0, 1] raceInit).tasks.map ResolveTask.pc =
      [Phase.done "song.mp3", Phase.done "song.mp3"] ∧
    (runSched [0, 0, 0, 1] raceInit).matCount = 1 ∧
    alookup "song.mp3" (runSched [0, 0, 0, 1] raceInit).recycler.references = some 2 := by
  refine ⟨rfl, rfl, rfl, rfl, rfl⟩

/-- Claim C2: the spec requires refcounts never to go negative.  After the
interleaving of `concurrent_resolve_double_materialization` both resolve
calls returned the handle `song.mp3` (so `enqueue` appended it twice), yet
the refcount is 1; the two subsequent `play` calls — each holder releasing
exactly once — drive the refcount to -1. -/
theorem refcount_goes_negative :
    alookup "song.mp3"
      ((play
          (play ["song.mp3", "song.mp3"] (runSched [0, 1, 0, 1, 0, 1] raceInit).recycler true).1
          (play ["song.mp3", "song.mp3"] (runSched [0, 1, 0, 1, 0, 1] raceInit).recycler true).2.1
          true).2.1).references = some (-1) := by
  rfl

/-- Claim C3 counterexample: with handle `h` registered at refcount 1 and a
disconnected sink, `play` pops the handle, `Voice.play` raises, and the
recycler is returned untouched — the refcount stays 1, so the reference is
NOT released when playback fails, contrary to the claim. -/
theorem play_failure_skips_release :
    play ["h"] recOne false = ([], recOne, PlayResult.failed "h") ∧
    alookup "h" recOne.references = some 1 := by
  refine ⟨rfl, rfl⟩

/-- Claim C3 (amended): `play` on a non-empty queue pops the head and hands
it to the sink; the Recycler reference is released after playback
completes, but when the sink raises (voice client not connected) the
exception propagates past the `decrement` line, so the reference is not
released even though the handle has already been popped. -/
theorem play_releases_only_on_success (h : String) (rest : List String)
    (rec : TrackRecycler) (v : Int)
    (hreg : (alookup h rec.handles).isSome)
    (hv : alookup h rec.references = some v) :
    (play (h :: rest) rec true).1 = rest ∧
    alookup h (play (h :: rest) rec true).2.1.references = some (v - 1) ∧
    (play (h :: rest) rec true).2.2 = PlayResult.played h ∧
    (play (h :: rest) rec false).1 = rest ∧
    (play (h :: rest) rec false).2.1 = rec ∧
    (play (h :: rest) rec false).2.2 = PlayResult.failed h := by
  refine ⟨rfl, ?_, rfl, rfl, rfl, rfl⟩
  simp [play, decrement, hreg, hv, alookup_aset_self]

theorem play_releases_only_on_success_witness :
    (play ["h"] recOne true).1 = [] ∧
    alookup "h" (play ["h"] recOne true).2.1.references = some (1 - 1) ∧
    (play ["h"] recOne true).2.2 = PlayResult.played "h" ∧
    (play ["h"] recOne false).1 = [] ∧
    (play ["h"] recOne false).2.1 = recOne ∧
    (play ["h"] recOne false).2.2 = PlayResult.failed "h" :=
  play_releases_only_on_success "h" [] recOne 1 (by decide) (by decide)

/-- Claim C7: a failing resolution returns the error sentinel `""` with the
recycler state unchanged (nothing registered in any of the three maps), and
`enqueue` skips the failed request and processes the remaining batch
exactly as if the failed request had not been there. -/
theorem resolve_failure_skipped (rec : TrackRecycler) (r : Request)
    (q : List String) (batch : List Request)
    (hn : alookup r.name rec.tracks = none) (hm : r.mat = none) :
    get_track_handle rec r = (rec, "") ∧
    enqueue false rec q (r :: batch) = enqueue false rec q batch := by
  have h1 : get_track_handle rec r = (rec, "") := by
    simp [get_track_handle, hn, hm]
  refine ⟨h1, ?_⟩
  simp [enqueue, enqueueGo, h1]

theorem resolve_failure_skipped_witness :
    get_track_handle recOne { name := "bad", mat := none } = (recOne, "") ∧
    enqueue false recOne [] [{ name := "bad", mat := none }] = enqueue false recOne [] [] :=
  resolve_failure_skipped recOne { name := "bad", mat := none } [] [] (by decide) rfl

/-- Claim C8: `play` on an empty queue is a silent no-op — it returns
without invoking the sink (`noTrack`), releases nothing and leaves the
queue empty — whereas `front` on an empty queue raises `IndexError`. -/
theorem play_empty_noop (rec : TrackRecycler) (connected : Bool) :
    play [] rec connected = ([], rec, PlayResult.noTrack) ∧
    front [] = Except.error "cannot get the front of an empty queue" :=
  ⟨rfl, rfl⟩

/-- Claim C9: `decrement` on a handle that is not a key of the handle map
returns the state unchanged — all three maps untouched, no error. -/
theorem decrement_unregistered_noop (rec : TrackRecycler) (h : String)
    (hh : alookup h rec.handles = none) : decrement rec h = rec := by
  simp [decrement, hh]

theorem decrement_unregistered_noop_witness : decrement recOne "x" = recOne :=
  decrement_unregistered_noop recOne "x" (by decide)

theorem decrement_handles (rec : TrackRecycler) (h : String) :
    (decrement rec h).handles = rec.handles := by
  by_cases hh : (alookup h rec.handles).isSome <;> simp [decrement, hh]

theorem decrement_tracks (rec : TrackRecycler) (h : String) :
    (decrement rec h).tracks = rec.tracks := by
  by_cases hh : (alookup h rec.handles).isSome <;> simp [decrement, hh]

theorem clearLoop_handles : ∀ (q : List String) (rec : TrackRecycler),
    (clearLoop rec q).handles = rec.handles
  | [], _ => rfl
  | h :: rest, rec => by
    rw [clearLoop, clearLoop_handles rest, decrement_handles]

theorem clearLoop_tracks : ∀ (q : List String) (rec : TrackRecycler),
    (clearLoop rec q).tracks = rec.tracks
  | [], _ => rfl
  | h :: rest, rec => by
    rw [clearLoop, clearLoop_tracks rest, decrement_tracks]

theorem clearLoop_references : ∀ (q : List String) (rec : TrackRecycler) (h : String) (v : Int),
    (alookup h rec.handles).isSome → alookup h rec.references = some v →
    alookup h (clearLoop rec q).references = some (v - q.count h)
  | [], _, _, _, _, hv => by simpa using hv
  | x :: rest, rec, h, v, hreg, hv => by
    by_cases hx : x = h
    · subst hx
      have hd : alookup x (decrement rec x).references = some (v - 1) := by
        simp [decrement, hreg, hv, alookup_aset_self]
      have hreg2 : (alookup x (decrement rec x).handles).isSome := by
        rw [decrement_handles]; exact hreg
      have hrec := clearLoop_references rest (decrement rec x) x (v - 1) hreg2 hd
      rw [clearLoop, hrec, List.count_cons_self]
      congr 1
      push_cast
      ring
    · have hpres : alookup h (decrement rec x).references = some v := by
        by_cases hxr : (alookup x rec.handles).isSome
        · simpa [decrement, hxr, alookup_aset_ne _ hx] using hv
        · simpa [decrement, hxr] using hv
      have hreg2 : (alookup h (decrement rec x).handles).isSome := by
        rw [decrement_handles]; exact hreg
      have hrec := clearLoop_references rest (decrement rec x) h v hreg2 hpres
      rw [clearLoop, hrec, List.count_cons_of_ne (Ne.symm hx)]

/-- Claim C4: `clear` on a state with the draining flag already set is a
no-op (idempotent, not an error); otherwise it drains the queue to empty,
leaves the track and handle maps untouched, releases exactly one Recycler
reference per drained queue element (each handle's count drops by exactly
its number of occurrences in the queue — none skipped, none double
released), and clears the draining flag so that a subsequent `enqueue` is
accepted (it runs its processing loop instead of returning early). -/
theorem clear_drains_and_is_idempotent (q : List String) (rec : TrackRecycler) :
    clear true q rec = (true, q, rec) ∧
    (clear false q rec).1 = false ∧
    (clear false q rec).2.1 = [] ∧
    (clear false q rec).2.2.handles = rec.handles ∧
    (clear false q rec).2.2.tracks = rec.tracks ∧
    (∀ h v, (alookup h rec.handles).isSome → alookup h rec.references = some v →
      alookup h (clear false q rec).2.2.references = some (v - q.count h)) ∧
    (∀ rec2 q2 batch, enqueue (clear false q rec).1 rec2 q2 batch = enqueueGo false rec2 q2 batch) := by
  refine ⟨rfl, rfl, rfl, clearLoop_handles q rec, clearLoop_tracks q rec, ?_, ?_⟩
  · intro h v hreg hv
    exact clearLoop_references q rec h v hreg hv
  · intro rec2 q2 batch
    rfl

theorem clear_drains_witness :
    alookup "h" (clear false ["h", "h", "g"] recPair).2.2.references = some 0 := by
  have hc := (clear_drains_and_is_idempotent ["h", "h", "g"] recPair).2.2.2.2.2.1 "h" 2
    (by decide) (by decide)
  have hcount : (["h", "h", "g"] : List String).count "h" = 2 := by decide
  rw [hcount] at hc
  simpa using hc

/-- Claim C5: a single `enqueue` of a batch of three requests (distinct
fresh identities, each materializing successfully to a non-sentinel handle)
with the clearing flag unset and no overlapping calls appends the three
handles to the ReadyQueue in submission order, and repeated sequential
`play` calls on a connected sink then consume them in exactly that FIFO
order. -/
theorem enqueue_fifo (rec : TrackRecycler) (a b c : Request) (ha hb hc : String)
    (hab : a.name ≠ b.name) (hac : a.name ≠ c.name) (hbc : b.name ≠ c.name)
    (hfa : alookup a.name rec.tracks = none)
    (hfb : alookup b.name rec.tracks = none)
    (hfc : alookup c.name rec.tracks = none)
    (hma : a.mat = some ha) (hmb : b.mat = some hb) (hmc : c.mat = some hc)
    (hna : ha ≠ "") (hnb : hb ≠ "") (hnc : hc ≠ "") :
    (enqueue false rec [] [a, b, c]).2 = [ha, hb, hc] ∧
    playTrace (enqueue false rec [] [a, b, c]).2 (enqueue false rec [] [a, b, c]).1 =
      [PlayResult.played ha, PlayResult.played hb, PlayResult.played hc] := by
  have g1 : get_track_handle rec a = (registerTrack rec a.name ha, ha) := by
    simp [get_track_handle, hfa, hma]
  have hfb1 : alookup b.name (registerTrack rec a.name ha).tracks = none := by
    simpa [registerTrack, alookup_aset_ne _ hab] using hfb
  have g2 : get_track_handle (registerTrack rec a.name ha) b =
      (registerTrack (registerTrack rec a.name ha) b.name hb, hb) := by
    simp [get_track_handle, hfb1, hmb]
  have hfc2 : alookup c.name (registerTrack (registerTrack rec a.name ha) b.name hb).tracks
      = none := by
    simpa [registerTrack, alookup_aset_ne _ hbc, alookup_aset_ne _ hac] using hfc
  have g3 : get_track_handle (registerTrack (registerTrack rec a.name ha) b.name hb) c =
      (registerTrack (registerTrack (registerTrack rec a.name ha) b.name hb) c.name hc, hc) := by
    simp [get_track_handle, hfc2, hmc]
  have e1 : enqueue false rec [] [a, b, c] =
      (registerTrack (registerTrack (registerTrack rec a.name ha) b.name hb) c.name hc,
       [ha, hb, hc]) := by
    simp [enqueue, enqueueGo, g1, g2, g3, hna, hnb, hnc]
  rw [e1]
  exact ⟨rfl, by simp [playTrace, play]⟩

theorem enqueue_fifo_witness :
    (enqueue false recEmpty []
      [{ name := "u1", mat := some "h1" }, { name := "u2", mat := some "h2" },
       { name := "u3", mat := some "h3" }]).2 = ["h1", "h2", "h3"] ∧
    playTrace
      (enqueue false recEmpty []
        [{ name := "u1", mat := some "h1" }, { name := "u2", mat := some "h2" },
         { name := "u3", mat := some "h3" }]).2
      (enqueue false recEmpty []
        [{ name := "u1", mat := some "h1" }, { name := "u2", mat := some "h2" },
         { name := "u3", mat := some "h3" }]).1 =
      [PlayResult.played "h1", PlayResult.played "h2", PlayResult.played "h3"] :=
  enqueue_fifo recEmpty
    { name := "u1", mat := some "h1" } { name := "u2", mat := some "h2" }
    { name := "u3", mat := some "h3" } "h1" "h2" "h3"
    (by decide) (by decide) (by decide) (by decide) (by decide) (by decide)
    rfl rfl rfl (by decide) (by decide) (by decide)

theorem tracklistLoop_spec (pass : Nat → Bool) :
    ∀ (n : Nat) (q : List String) (i : Nat) (acc : List String), n ≤ q.length →
    tracklistLoop pass n i acc q =
      (acc ++ ((q.take n).enumFrom i).filterMap (fun p => if pass p.1 then some p.2 else none),
       q.drop n ++ q.take n)
  | 0, q, i, acc, _ => by simp [tracklistLoop]
  | n + 1, [], i, acc, hn => by simp at hn
  | n + 1, h :: rest, i, acc, hn => by
    have hn2 : n ≤ rest.length := by simpa using hn
    have hn3 : n ≤ (rest ++ [h]).length := by simp; omega
    simp only [tracklistLoop]
    rw [tracklistLoop_spec pass n (rest ++ [h]) (i + 1) (if pass i then acc ++ [h] else acc) hn3]
    rw [List.take_append_of_le_length hn2, List.drop_append_of_le_length hn2]
    rw [List.take_succ_cons, List.drop_succ_cons, List.enumFrom_cons, List.filterMap_cons]
    by_cases hp : pass i <;> simp [hp]

theorem filterMap_snd (l : List (Nat × String)) :
    l.filterMap (fun p => some p.2) = l.map Prod.snd := by
  induction l with
  | nil => rfl
  | cons x rest ih => simp [List.filterMap_cons, ih]

theorem filterMap_enumFrom_lt (M : Nat) :
    ∀ (l : List String) (i : Nat),
      (List.enumFrom i l).filterMap (fun p => if p.1 < M then some p.2 else none) =
        l.take (M - i)
  | [], i => by simp
  | h :: rest, i => by
    rw [List.enumFrom_cons, List.filterMap_cons]
    by_cases hi : i < M
    · have hs : M - i = (M - (i + 1)) + 1 := by omega
      simp only [filterMap_enumFrom_lt M rest (i + 1)]
      simp [hi, hs, List.take_succ_cons]
    · have hz : M - i = 0 := by omega
      have hz2 : M - (i + 1) = 0 := by omega
      simp [hi, filterMap_enumFrom_lt M rest (i + 1), hz, hz2]

/-- Claim C6: `get_tracklist` returns the first `min(limit, size)` queued
handles in queue order (`List.take` clamps at the queue length), all of
them when the limit is non-positive, and restores the queue to exactly its
state before the call (the full rotation is the identity): no other side
effect exists in the model. -/
theorem get_tracklist_spec (q : List String) (m : Int) :
    get_tracklist q m = ((if m ≤ 0 then q else q.take m.toNat), q) := by
  by_cases hm : m ≤ 0
  · rw [if_pos hm]
    unfold get_tracklist
    rw [if_pos hm]
    rw [tracklistLoop_spec _ q.length q 0 [] (le_refl q.length)]
    simp [List.take_length, List.drop_length, filterMap_snd, List.enumFrom_map_snd]
  · rw [if_neg hm]
    unfold get_tracklist
    rw [if_neg hm]
    have hpass : (fun i : Nat => decide ((i : Int) < m)) = fun i : Nat => decide (i < m.toNat) := by
      funext i
      simp [decide_eq_decide, Int.lt_toNat]
    rw [hpass]
    rw [tracklistLoop_spec _ q.length q 0 [] (le_refl q.length)]
    have hfm := filterMap_enumFrom_lt m.toNat q 0
    simp only [Nat.sub_zero] at hfm
    simp at hfm
    simp [List.take_length, List.drop_length, hfm]

theorem dotScan_some (cs : List Char) :
    ∀ (n i : Nat), dotScan cs n = some i →
      i < n ∧ cs.getD i ' ' = '.' ∧ ∀ j, i < j → j < n → cs.getD j ' ' ≠ '.'
  | 0, i, h => by simp [dotScan] at h
  | n + 1, i, h => by
    rw [dotScan] at h
    by_cases hc : cs.getD n ' ' = '.'
    · rw [if_pos hc] at h
      injection h with h
      subst h
      exact ⟨Nat.lt_succ_self n, hc, fun j hj1 hj2 => by omega⟩
    · rw [if_neg hc] at h
      obtain ⟨h1, h2, h3⟩ := dotScan_some cs n i h
      refine ⟨Nat.lt_succ_of_lt h1, h2, fun j hj1 hj2 => ?_⟩
      by_cases hjn : j = n
      · subst hjn; exact hc
      · exact h3 j hj1 (by omega)

theorem dotScan_last (cs : List Char) :
    ∀ (n i : Nat), i < n → cs.getD i ' ' = '.' →
      (∀ j, i < j → j < n → cs.getD j ' ' ≠ '.') → dotScan cs n = some i
  | 0, i, h, _, _ => absurd h (Nat.not_lt_zero i)
  | n + 1, i, hin, hdot, hmax => by
    rw [dotScan]
    by_cases hi : i = n
    · subst hi
      rw [if_pos hdot]
    · have hne : cs.getD n ' ' ≠ '.' := hmax n (by omega) (Nat.lt_succ_self n)
      rw [if_neg hne]
      exact dotScan_last cs n i (by omega) hdot (fun j hj1 hj2 => hmax j hj1 (by omega))

/-- Claim C10: `is_valid_attachment` accepts a filename exactly when it
contains a dot and the substring from its LAST dot to the end is one of
`.mp3`, `.mp4`, `.wav`, `.webm`, `.mov`; the existential position `i` below
is the last dot (no later index holds a dot).  A dotless filename admits no
such `i`, hence is rejected. -/
theorem is_valid_attachment_iff (f : String) :
    is_valid_attachment f = true ↔
      ∃ i, i < f.data.length ∧ f.data.getD i ' ' = '.' ∧
        (∀ j, i < j → j < f.data.length → f.data.getD j ' ' ≠ '.') ∧
        String.mk (f.data.drop i) ∈ [".mp3", ".mp4", ".wav", ".webm", ".mov"] := by
  cases hscan : dotScan f.data f.data.length with
  | none =>
    have hval : is_valid_attachment f = false := by
      unfold is_valid_attachment
      rw [hscan]
    rw [hval]
    simp only [Bool.false_eq_true, false_iff]
    rintro ⟨i, hi, hdot, hmax, -⟩
    have := dotScan_last f.data f.data.length i hi hdot hmax
    rw [hscan] at this
    exact Option.noConfusion this
  | some i =>
    obtain ⟨hi, hdot, hmax⟩ := dotScan_some f.data f.data.length i hscan
    have hval : is_valid_attachment f =
        (String.mk (f.data.drop i) == ".mp3" || String.mk (f.data.drop i) == ".mp4" ||
         String.mk (f.data.drop i) == ".wav" || String.mk (f.data.drop i) == ".webm" ||
         String.mk (f.data.drop i) == ".mov") := by
      unfold is_valid_attachment
      rw [hscan]
    rw [hval]
    constructor
    · intro h
      refine ⟨i, hi, hdot, hmax, ?_⟩
      simp only [Bool.or_eq_true, beq_iff_eq] at h
      simp only [List.mem_cons, List.mem_singleton]
      tauto
    · rintro ⟨i2, hi2, hdot2, hmax2, hmem⟩
      have h2 : dotScan f.data f.data.length = some i2 :=
        dotScan_last f.data f.data.length i2 hi2 hdot2 hmax2
      rw [hscan] at h2
      injection h2 with h2
      subst h2
      simp only [List.mem_cons, List.mem_singleton] at hmem
      simp only [Bool.or_eq_true, beq_iff_eq]
      tauto
